import Mathlib

/-!
# Verification of the notion_todo integration core

Shallow embedding of `custom_components/notion_todo` (api.py, coordinator.py,
todo.py).  JSON values are modeled by the inductive `JVal`; the Python
extraction helpers of todo.py become functions over `JVal` returning
`Except PyExn _` where `PyExn.raised` stands for an uncaught Python
exception.  Dates are modeled as `Int` day ordinals (proleptic Gregorian,
epoch 1970-01-01) and datetimes as `Int` seconds since that epoch.
-/

namespace NotionTodo

/-- A JSON value as produced by parsing a Notion API response body. -/
inductive JVal where
  | null
  | bool (b : Bool)
  | num (n : Int)
  | str (s : String)
  | arr (xs : List JVal)
  | obj (fields : List (String × JVal))

/-- Python truthiness of a JSON-derived value (`bool(v)`). -/
def jTruthy : JVal → Bool
  | .null => false
  | .bool b => b
  | .num n => decide (n ≠ 0)
  | .str s => decide (s ≠ "")
  | .arr xs => !xs.isEmpty
  | .obj fs => !fs.isEmpty

/-- Truthiness of a `dict.get` result (`None` is falsy). -/
def jTruthyOpt : Option JVal → Bool
  | none => false
  | some v => jTruthy v

/-- Model of Python `raised`-style exceptions: any uncaught exception. -/
inductive PyExn where
  | raised
deriving DecidableEq, Repr

/-- Python `v.get(k)`: field lookup on a dict; raises (AttributeError) when
`v` is not a dict.  A JSON `null` field is returned as `.null`. -/
def jGet (v : JVal) (k : String) : Except PyExn (Option JVal) :=
  match v with
  | .obj fs => .ok (fs.lookup k)
  | _ => .error .raised

/-- Total field lookup, `none` when the value is not an object. -/
def jGetTotal (v : JVal) (k : String) : Option JVal :=
  match v with
  | .obj fs => fs.lookup k
  | _ => none

/-- Python `x or d` for a `dict.get` result (`None`/falsy replaced by `d`). -/
def jOrElse (v : Option JVal) (d : JVal) : JVal :=
  match v with
  | some x => if jTruthy x then x else d
  | none => d

/-- Truthiness of an optional string (`None` and `""` are falsy). -/
def strTruthyOpt : Option String → Bool
  | none => false
  | some s => decide (s ≠ "")

/-- Model of Python `str.casefold` (ASCII case folding). -/
def pyCasefold (s : String) : String :=
  String.mk (s.toList.map Char.toLower)

/-- Test `startsWithList p s`: holds when `p` is an initial segment of `s`. -/
def startsWithList : List Char → List Char → Bool
  | [], _ => true
  | _ :: _, [] => false
  | p :: ps, c :: cs => p == c && startsWithList ps cs

/-- Test `occursIn pat s`: `pat` occurs contiguously somewhere in `s`
(Python `pat in s` on strings). -/
def occursIn (pat : List Char) : List Char → Bool
  | [] => startsWithList pat []
  | c :: rest => startsWithList pat (c :: rest) || occursIn pat rest

/-- Python substring test `pat in s`. -/
def strContains (s pat : String) : Bool :=
  occursIn pat.toList s.toList

/-- Python `"T" in start`. -/
def hasT (s : String) : Bool := strContains s "T"

/-- Model of Python `str.strip`: drop leading and trailing whitespace. -/
def pyStrip (s : String) : String :=
  String.mk (((s.toList.dropWhile Char.isWhitespace).reverse.dropWhile
    Char.isWhitespace).reverse)

/-! ## Calendar arithmetic (model of Python `datetime.date` ordinals)

`daysFromCivil` is the standard civil-from-days algorithm giving the number
of days since 1970-01-01; valid for years ≥ 1, which covers every
four-digit-year date the parsers below accept. -/

def daysFromCivil (y m d : Int) : Int :=
  let yy := if m ≤ 2 then y - 1 else y
  let era := yy / 400
  let yoe := yy - era * 400
  let mp := if 2 < m then m - 3 else m + 9
  let doy := (153 * mp + 2) / 5 + d - 1
  let doe := yoe * 365 + yoe / 4 - yoe / 100 + doy
  era * 146097 + doe - 719468

def digitVal (c : Char) : Int := (c.toNat : Int) - 48

/-- Model of Python `datetime.date.fromisoformat`: parses `YYYY-MM-DD` into a
day ordinal; `none` models the `ValueError` raised on a malformed string. -/
def parseDateISO (s : String) : Option Int :=
  match s.toList with
  | [y1, y2, y3, y4, '-', m1, m2, '-', d1, d2] =>
    if (y1.isDigit && y2.isDigit && y3.isDigit && y4.isDigit &&
        m1.isDigit && m2.isDigit && d1.isDigit && d2.isDigit) then
      let y := 1000 * digitVal y1 + 100 * digitVal y2 + 10 * digitVal y3 + digitVal y4
      let m := 10 * digitVal m1 + digitVal m2
      let d := 10 * digitVal d1 + digitVal d2
      if 1 ≤ m ∧ m ≤ 12 ∧ 1 ≤ d ∧ d ≤ 31 then some (daysFromCivil y m d) else none
    else none
  | _ => none

/-- Model of the external `homeassistant.util.dt.parse_datetime`: parses an
ISO datetime `YYYY-MM-DDTHH:MM:SS` into seconds since the epoch; `none` when
the string does not parse (the library returns `None` rather than raising). -/
def parse_datetime (s : String) : Option Int :=
  match s.toList with
  | [y1, y2, y3, y4, '-', m1, m2, '-', d1, d2, 'T', h1, h2, ':', n1, n2, ':', s1, s2] =>
    if (y1.isDigit && y2.isDigit && y3.isDigit && y4.isDigit &&
        m1.isDigit && m2.isDigit && d1.isDigit && d2.isDigit &&
        h1.isDigit && h2.isDigit && n1.isDigit && n2.isDigit &&
        s1.isDigit && s2.isDigit) then
      let y := 1000 * digitVal y1 + 100 * digitVal y2 + 10 * digitVal y3 + digitVal y4
      let m := 10 * digitVal m1 + digitVal m2
      let d := 10 * digitVal d1 + digitVal d2
      let hh := 10 * digitVal h1 + digitVal h2
      let nn := 10 * digitVal n1 + digitVal n2
      let ss := 10 * digitVal s1 + digitVal s2
      if 1 ≤ m ∧ m ≤ 12 ∧ 1 ≤ d ∧ d ≤ 31 ∧ hh ≤ 23 ∧ nn ≤ 59 ∧ ss ≤ 59 then
        some (daysFromCivil y m d * 86400 + hh * 3600 + nn * 60 + ss)
      else none
    else none
  | _ => none

/-- Model of the external `homeassistant.util.dt.as_local`: converting an
aware datetime to the local timezone leaves the represented instant
unchanged, so on instants it is the identity. -/
def as_local (t : Int) : Int := t

/-- A due value: either a calendar date (day ordinal) or a datetime
(seconds since epoch) — mirroring Python `dt.date` vs `dt.datetime`. -/
inductive DueValue where
  | date (d : Int)
  | datetime (t : Int)
deriving DecidableEq, Repr

/-! ## Property extraction (todo.py)

Modeling conventions, stated once:
* `Except PyExn _` results: `.error .raised` models an uncaught Python
  exception escaping the function (there is no try/except around these
  helpers apart from the `fromisoformat` one).
* A `name` field whose value is truthy but not a string is modeled as a
  raise: every complete execution path of the integration calls a string
  method (`casefold`) on such a value, so end-to-end behavior agrees.
  A falsy non-string `name` (null, "", 0, false, [], `\x7b\x7d`) behaves
  exactly like a missing name everywhere it is consumed and is modeled
  as `none`.
-/

/-- Model of `_plain_text` (todo.py 45-47): join rich-text parts' `plain_text`
fields.  Iterating a non-list, or joining a non-string part, raises. -/
def joinPlainText : List JVal → Except PyExn String
  | [] => .ok ""
  | part :: rest =>
    match part with
    | .obj fs =>
      match (fs.lookup "plain_text").getD (.str "") with
      | .str s =>
        match joinPlainText rest with
        | .ok r => .ok (s ++ r)
        | .error e => .error e
      | _ => .error .raised
    | _ => .error .raised

/-- The `title`/`rich_text` arm of `_extract_text` (todo.py 55-56):
`_plain_text(prop.get(prop_type) or []) or None`. -/
def extractTextParts (v : Option JVal) : Except PyExn (Option String) :=
  match jOrElse v (.arr []) with
  | .arr xs =>
    match joinPlainText xs with
    | .ok s =>
      let t := pyStrip s
      .ok (if t = "" then none else some t)
    | .error e => .error e
  | _ => .error .raised

/-- The `select` arm of `_extract_text` (todo.py 57-59):
`select.get("name") if select else None`. -/
def extractSelectName (v : Option JVal) : Except PyExn (Option String) :=
  match v with
  | none => .ok none
  | some sel =>
    if jTruthy sel then
      match sel with
      | .obj fs =>
        match (fs.lookup "name").getD .null with
        | .str n => .ok (if n = "" then none else some n)
        | .null => .ok none
        | nv => if jTruthy nv then .error .raised else .ok none
      | _ => .error .raised
    else .ok none

/-- Model of `_extract_text` (todo.py 50-60). -/
def extract_text (prop : Option JVal) : Except PyExn (Option String) :=
  match prop with
  | none => .ok none
  | some p =>
    if jTruthy p then
      match p with
      | .obj fs =>
        match fs.lookup "type" with
        | some (.str t) =>
          if t = "title" then extractTextParts (fs.lookup "title")
          else if t = "rich_text" then extractTextParts (fs.lookup "rich_text")
          else if t = "select" then extractSelectName (fs.lookup "select")
          else .ok none
        | _ => .ok none
      | _ => .error .raised
    else .ok none

/-- The shared body of `_status_name` (todo.py 86-87):
`value = prop.get(prop_type) or \x7b\x7d; return value.get("name")`. -/
def statusValueName (v : Option JVal) : Except PyExn (Option String) :=
  match jOrElse v (.obj []) with
  | .obj fs =>
    match (fs.lookup "name").getD .null with
    | .str n => .ok (if n = "" then none else some n)
    | .null => .ok none
    | nv => if jTruthy nv then .error .raised else .ok none
  | _ => .error .raised

/-- Model of `_status_name` (todo.py 80-88). -/
def status_name (prop : Option JVal) : Except PyExn (Option String) :=
  match prop with
  | none => .ok none
  | some p =>
    if jTruthy p then
      match p with
      | .obj fs =>
        match fs.lookup "type" with
        | some (.str t) =>
          if t = "status" then statusValueName (fs.lookup "status")
          else if t = "select" then statusValueName (fs.lookup "select")
          else .ok none
        | _ => .ok none
      | _ => .error .raised
    else .ok none

/-- The completion keyword test of `_is_completed` (todo.py 100-106):
`"done" in name or "complete" in name or "completed" in name or
"dropped" in name` over the casefolded name. -/
def doneWord (n : String) : Bool :=
  let c := pyCasefold n
  strContains c "done" || strContains c "complete" ||
    strContains c "completed" || strContains c "dropped"

/-- The `status`/`select` arm of `_is_completed` (todo.py 98-106):
`name = (value.get("name") or "").casefold()` then the keyword test. -/
def completedFromName (v : Option JVal) : Except PyExn Bool :=
  match jOrElse v (.obj []) with
  | .obj fs =>
    match (fs.lookup "name").getD .null with
    | .str n => .ok (doneWord n)
    | nv => if jTruthy nv then .error .raised else .ok (doneWord "")
  | _ => .error .raised

/-- Model of `_is_completed` (todo.py 91-107). -/
def is_completed (prop : Option JVal) : Except PyExn Bool :=
  match prop with
  | none => .ok false
  | some p =>
    if jTruthy p then
      match p with
      | .obj fs =>
        match fs.lookup "type" with
        | some (.str t) =>
          if t = "checkbox" then .ok (jTruthyOpt (fs.lookup "checkbox"))
          else if t = "status" then completedFromName (fs.lookup "status")
          else if t = "select" then completedFromName (fs.lookup "select")
          else .ok false
        | _ => .ok false
      | _ => .error .raised
    else .ok false

/-- The traversal of `_extract_due` down to the `start` string
(todo.py 65-70): `.ok none` at each early `return None`, `.ok (some s)`
when a truthy string start is reached. -/
def dueStart (prop : Option JVal) : Except PyExn (Option String) :=
  match prop with
  | none => .ok none
  | some p =>
    if jTruthy p then
      match p with
      | .obj fs =>
        match fs.lookup "type" with
        | some (.str t) =>
          if t = "date" then
            match jOrElse (fs.lookup "date") (.obj []) with
            | .obj dfs =>
              let start := (dfs.lookup "start").getD .null
              if jTruthy start then
                match start with
                | .str s => .ok (some s)
                | _ => .error .raised
              else .ok none
            | _ => .error .raised
          else .ok none
        | _ => .ok none
      | _ => .error .raised
    else .ok none

/-- Model of `_extract_due` (todo.py 63-77): walk to the start value, then parse it
as a local datetime when it contains a `T`, else as a calendar date
(todo.py 71-77); a parse failure yields `None`. -/
def extract_due (prop : Option JVal) : Except PyExn (Option DueValue) :=
  match dueStart prop with
  | .error e => .error e
  | .ok none => .ok none
  | .ok (some s) =>
    if hasT s then
      .ok ((parse_datetime s).map (fun u => DueValue.datetime (as_local u)))
    else
      .ok ((parseDateISO s).map DueValue.date)

/-- The start string `_extract_due` parses, when it reaches one
(used to state C8). -/
def startOf (prop : Option JVal) : Option String :=
  match dueStart prop with
  | .ok (some s) => some s
  | _ => none

/-! ## Filter configuration and the per-task filter (todo.py) -/

/-- Model of `_parse_status_list` (todo.py 110-114): split a comma-separated config
string, trim items, drop empties, casefold.  Membership is all that is
consumed downstream, so the Python `set` is modeled as a list. -/
def parse_status_list (value : Option String) : List String :=
  match value with
  | none => []
  | some v =>
    if v = "" then []
    else (v.splitOn ",").filterMap fun item =>
      let t := pyStrip item
      if t = "" then none else some (pyCasefold t)

/-- Model of `_due_within_window` (todo.py 124-133).  `nowT` is `dt_util.now()` as
seconds since epoch and `nowD` is `now.date()` as a day ordinal. -/
def due_within_window (due : Option DueValue) (days : Int) (nowT nowD : Int) : Bool :=
  match due with
  | none => false
  | some v =>
    if days ≤ 0 then false
    else
      match v with
      | .datetime t => decide (t ≤ nowT + days * 86400)
      | .date d => decide (d ≤ nowD + days)

/-- The per-task filter decision of `_handle_coordinator_update`
(todo.py 210-221), returning `false` when the Python loop `continue`s. -/
def keepTask (exclude incl : List String) (days : Int)
    (statusName : Option String) (due : Option DueValue) (nowT nowD : Int) : Bool :=
  let dropExclude := !exclude.isEmpty && strTruthyOpt statusName &&
    decide (pyCasefold (statusName.getD "") ∈ exclude)
  if dropExclude then false
  else if !incl.isEmpty || decide (0 < days) then
    let include_by_status :=
      if strTruthyOpt statusName && !incl.isEmpty then
        decide (pyCasefold (statusName.getD "") ∈ incl)
      else false
    let include_by_due := due_within_window due days nowT nowD
    include_by_status || include_by_due
  else true

/-- The filter rule as the specification words it (spec §4.4 steps 1-3),
for comparison with `keepTask`: exclude-match drops unconditionally;
otherwise, with an include set or a positive due window configured, keep
iff the casefolded status name is in the include set or the due value is
within the window; otherwise keep. -/
def keepTaskSpec (exclude incl : List String) (days : Int)
    (statusName : Option String) (due : Option DueValue) (nowT nowD : Int) : Bool :=
  let statusIn : List String → Bool := fun l =>
    match statusName with
    | some s => decide (pyCasefold s ∈ l)
    | none => false
  if !exclude.isEmpty && statusIn exclude then false
  else if !incl.isEmpty || decide (0 < days) then
    statusIn incl || due_within_window due days nowT nowD
  else true

/-! ## The entity update pipeline (todo.py 175-232) -/

/-- Model of `homeassistant.components.todo.TodoItemStatus`. -/
inductive TodoItemStatus where
  | needsAction
  | completed
deriving DecidableEq, Repr

/-- Model of `homeassistant.components.todo.TodoItem` as constructed at
todo.py 222-230. -/
structure TodoItem where
  summary : String
  uid : Option JVal
  status : TodoItemStatus
  due : Option DueValue
  description : Option String

/-- The resolved configuration consumed by `_handle_coordinator_update`:
property names plus parsed filter options. -/
structure EntryConfig where
  titleProperty : String
  statusProperty : String
  dueProperty : String
  descriptionProperty : String
  excludeStatuses : List String
  includeStatuses : List String
  dueWithinDays : Int

/-- One iteration of the `for page in pages` loop of
`_handle_coordinator_update` (todo.py 196-230): `.ok none` when the page
is skipped, `.ok (some item)` when an item is appended. -/
def buildOne (cfg : EntryConfig) (nowT nowD : Int) (page : JVal) :
    Except PyExn (Option TodoItem) :=
  match jGet page "archived" with
  | .error e => .error e
  | .ok arch =>
    if jTruthyOpt arch then .ok none
    else
      match jGet page "in_trash" with
      | .error e => .error e
      | .ok trash =>
        if jTruthyOpt trash then .ok none
        else
          match jGet page "properties" with
          | .error e => .error e
          | .ok propsO =>
            let props := propsO.getD (.obj [])
            match jGet props cfg.titleProperty with
            | .error e => .error e
            | .ok tp =>
              match extract_text tp with
              | .error e => .error e
              | .ok titleR =>
                let title :=
                  match titleR with
                  | some s => if s = "" then "Untitled" else s
                  | none => "Untitled"
                match jGet props cfg.statusProperty with
                | .error e => .error e
                | .ok sp =>
                  match status_name sp with
                  | .error e => .error e
                  | .ok statusName =>
                    match is_completed sp with
                    | .error e => .error e
                    | .ok completed =>
                      match jGet props cfg.dueProperty with
                      | .error e => .error e
                      | .ok dp =>
                        match extract_due dp with
                        | .error e => .error e
                        | .ok due =>
                          match jGet props cfg.descriptionProperty with
                          | .error e => .error e
                          | .ok descp =>
                            match extract_text descp with
                            | .error e => .error e
                            | .ok descR =>
                              if keepTask cfg.excludeStatuses cfg.includeStatuses
                                  cfg.dueWithinDays statusName due nowT nowD then
                                match jGet page "id" with
                                | .error e => .error e
                                | .ok uid =>
                                  .ok (some
                                    { summary := title
                                      uid := uid
                                      status := if completed then .completed else .needsAction
                                      due := due
                                      description :=
                                        match descR with
                                        | some s => if s = "" then none else some s
                                        | none => none })
                              else .ok none

/-- The whole loop of `_handle_coordinator_update` over the coordinator
snapshot: the list published as `_attr_todo_items`. -/
def buildItems (cfg : EntryConfig) (nowT nowD : Int) :
    List JVal → Except PyExn (List TodoItem)
  | [] => .ok []
  | page :: rest =>
    match buildOne cfg nowT nowD page with
    | .error e => .error e
    | .ok o =>
      match buildItems cfg nowT nowD rest with
      | .error e => .error e
      | .ok tail => .ok (match o with | some it => it :: tail | none => tail)

/-- The item a single record contributes, `none` when it is skipped or its
processing raises. -/
def itemOf (cfg : EntryConfig) (nowT nowD : Int) (page : JVal) : Option TodoItem :=
  match buildOne cfg nowT nowD page with
  | .ok o => o
  | .error _ => none

/-- The archived/trash skip test of todo.py 197. -/
def pageFlagged (page : JVal) : Bool :=
  jTruthyOpt (jGetTotal page "archived") || jTruthyOpt (jGetTotal page "in_trash")

/-! ## API client (api.py)

The error classes of api.py 23-40 form one closed hierarchy: the four
specific classes all derive from `NotionTodoApiClientError`.  They are
modeled as the constructors of one inductive type; the base class is the
type itself, `.api` standing for an exception of exactly the base class. -/

inductive ApiErr where
  | api (msg : String)
  | communication (msg : String)
  | authentication (msg : String)
  | notFound (msg : String)
  | rateLimit (msg : String)
deriving DecidableEq, Repr

/-- Every member of the closed error set is a `NotionTodoApiClientError`
(each class derives from the base, api.py 27-40). -/
def isNotionTodoApiClientError : ApiErr → Bool
  | .api _ => true
  | .communication _ => true
  | .authentication _ => true
  | .notFound _ => true
  | .rateLimit _ => true

def isAuthErr : ApiErr → Bool
  | .authentication _ => true
  | _ => false

/-- The outcome of one HTTP attempt as `_api_wrapper` observes it:
either a completed response (with its status and, for a body the client
reads, the parsed JSON — `none` when reading/parsing the body raises a
non-`ClientError` exception), or an exception from the request machinery. -/
inductive HttpOutcome where
  | response (status : Nat) (body : Option JVal)
  | timeoutExc (msg : String)
  | clientExc (msg : String)
  | otherExc (msg : String)

/-- Model of the message of the `aiohttp.ClientResponseError` raised by
`response.raise_for_status()`; the claims do not depend on its exact text. -/
def raiseForStatusMsg (status : Nat) : String := toString status

/-- Model of `_api_wrapper` (api.py 101-157).  Statuses 401/403/400/404/429 are
classified first; any other status ≥ 400 makes `raise_for_status()` raise
`aiohttp.ClientResponseError`, which the `except (aiohttp.ClientError,
socket.gaierror)` clause at api.py 144 converts to a CommunicationError.
A body that fails to parse raises a `ValueError`, wrapped by the broad
`except Exception` clause into the base error.  The final
`ERROR_UNEXPECTED_RESPONSE` raise at api.py 156-157 is unreachable: every
path through the `try` block either returns or sets `error`. -/
def api_wrapper : HttpOutcome → Except ApiErr JVal
  | .response status body =>
    if status = 401 ∨ status = 403 then .error (.authentication "Invalid credentials")
    else if status = 400 then .error (.notFound "Invalid database id")
    else if status = 404 then .error (.notFound "Resource not found")
    else if status = 429 then .error (.rateLimit "Rate limit exceeded")
    else if 400 ≤ status then
      .error (.communication ("Error fetching information - " ++ raiseForStatusMsg status))
    else
      match body with
      | some j => .ok j
      | none => .error (.api "Unexpected error - body is not valid JSON")
  | .timeoutExc m => .error (.communication ("Timeout error fetching information - " ++ m))
  | .clientExc m => .error (.communication ("Error fetching information - " ++ m))
  | .otherExc m => .error (.api ("Unexpected error - " ++ m))

def isGenericApiResult : Except ApiErr JVal → Bool
  | .error (.api _) => true
  | _ => false

def isCommResult : Except ApiErr JVal → Bool
  | .error (.communication _) => true
  | _ => false

/-! ## Pagination (api.py 58-77) -/

/-- One response page of `async_query_data_source`, reduced to the three
fields the loop consumes. -/
structure QueryPage where
  results : List JVal
  has_more : Bool
  next_cursor : Option String

/-- The request payload sent for one page (api.py 63-67). -/
structure PageRequest where
  page_size : Nat
  start_cursor : Option String
deriving DecidableEq, Repr

/-- Python truthiness of the `next_cursor` variable (api.py 66). -/
def cursorTruthy : Option String → Bool
  | none => false
  | some c => decide (c ≠ "")

/-- The `while True` loop of `async_query_data_source` (api.py 65-76),
run against a fixed sequence of server responses.  `cur` is the
`start_cursor` key currently in the mutable payload dict (absent on the
first request; only overwritten when the returned cursor is truthy).
Returns the requests issued and the accumulated results. -/
def queryGo : Option String → List QueryPage → List PageRequest × List JVal
  | _, [] => ([], [])
  | cur, p :: rest =>
    let req : PageRequest := ⟨100, cur⟩
    if p.has_more then
      let cur' := if cursorTruthy p.next_cursor then p.next_cursor else cur
      let acc := queryGo cur' rest
      (req :: acc.1, p.results ++ acc.2)
    else ([req], p.results)

/-- Model of `async_query_data_source` (api.py 58-77). -/
def async_query_data_source (pages : List QueryPage) : List PageRequest × List JVal :=
  queryGo none pages

/-- The page sequences described by claim C5: every page reports
`has_more` except the last, each non-last page returning a (truthy)
`next_cursor`. -/
def WellPaged : List QueryPage → Prop
  | [] => False
  | [p] => p.has_more = false
  | p :: q :: rest =>
    p.has_more = true ∧ (∃ c, p.next_cursor = some c ∧ c ≠ "") ∧ WellPaged (q :: rest)

/-! ## Coordinator (coordinator.py) -/

/-- The exceptions `_async_update_data` lets escape: Home Assistant's
`ConfigEntryAuthFailed` and `UpdateFailed`. -/
inductive CoordRaise where
  | configEntryAuthFailed (msg : String)
  | updateFailed (msg : String)
deriving DecidableEq, Repr

/-- Rendering `str(exception)` of an API error: its message. -/
def errMsg : ApiErr → String
  | .api m => m
  | .communication m => m
  | .authentication m => m
  | .notFound m => m
  | .rateLimit m => m

/-- Model of `_async_update_data` (coordinator.py 26-40): `dsId` is
`config_entry.data.get(CONF_DATA_SOURCE_ID)` and `fetch` the outcome of
`async_query_data_source`.  A falsy id raises `UpdateFailed` (not caught
by the `except NotionTodoApiClient*` clauses); an AuthenticationError
becomes `ConfigEntryAuthFailed`; every other `NotionTodoApiClientError`
— NotFoundError, CommunicationError, RateLimitError and the base class —
becomes `UpdateFailed`. -/
def async_update_data (dsId : Option String) (fetch : Except ApiErr (List JVal)) :
    Except CoordRaise (List JVal) :=
  if strTruthyOpt dsId then
    match fetch with
    | .ok pages => .ok pages
    | .error e =>
      match e with
      | .authentication m => .error (.configEntryAuthFailed m)
      | .notFound m => .error (.updateFailed m)
      | e' => .error (.updateFailed (errMsg e'))
  else .error (.updateFailed "Missing data source id; reconfigure integration.")

/-- Modelled from the spec: the host framework's coordinator state around
`_async_update_data` (the `DataUpdateCoordinator` base class is an
external dependency, not part of this repository).  `data` is the stored
snapshot, `authBlocked` records the auth-failure condition that blocks
further unattended refreshes until re-authentication, and
`lastUpdateSuccess` the Failed/Success outcome of the last cycle. -/
structure CoordState where
  data : Option (List JVal)
  authBlocked : Bool
  lastUpdateSuccess : Bool

/-- Modelled from the spec: one refresh tick.  On success the snapshot is
replaced atomically; on `ConfigEntryAuthFailed` the coordinator enters the
auth-blocked condition; on `UpdateFailed` it transitions to Failed,
leaving the stored snapshot untouched. -/
def coordinator_tick (st : CoordState) (dsId : Option String)
    (fetch : Except ApiErr (List JVal)) : CoordState :=
  match async_update_data dsId fetch with
  | .ok pages => ⟨some pages, false, true⟩
  | .error (.configEntryAuthFailed _) => ⟨st.data, true, false⟩
  | .error (.updateFailed _) => ⟨st.data, st.authBlocked, false⟩

/-- Modelled from the spec: a coordinator keeps being scheduled for
unattended refreshes exactly while it is not auth-blocked. -/
def retry_on_next_tick (st : CoordState) : Bool := !st.authBlocked

/-- Modelled from the spec (§7): whether the condition an escaped exception
produces is retried automatically on the next scheduled tick —
`UpdateFailed` is a transient condition and is retried, while
`ConfigEntryAuthFailed` blocks unattended refreshes until the user
re-authenticates. -/
def coordRaiseRetried : CoordRaise → Bool
  | .updateFailed _ => true
  | .configEntryAuthFailed _ => false

/-! ## Supporting lemmas -/

theorem startsWithList_iff (p : List Char) : ∀ s, startsWithList p s = true ↔ ∃ t, s = p ++ t := by
  induction p with
  | nil =>
    intro s
    simp [startsWithList]
  | cons a ps ih =>
    intro s
    cases s with
    | nil => simp [startsWithList]
    | cons c cs =>
      simp only [startsWithList, Bool.and_eq_true, beq_iff_eq, ih, List.cons_append,
        List.cons.injEq]
      constructor
      · rintro ⟨rfl, t, rfl⟩
        exact ⟨t, rfl, rfl⟩
      · rintro ⟨t, rfl, rfl⟩
        exact ⟨rfl, t, rfl⟩

theorem occursIn_iff (p : List Char) : ∀ s, occursIn p s = true ↔ ∃ pre post, s = pre ++ p ++ post := by
  intro s
  induction s with
  | nil =>
    simp only [occursIn, startsWithList_iff]
    constructor
    · rintro ⟨t, ht⟩
      rcases List.append_eq_nil.mp ht.symm with ⟨rfl, rfl⟩
      exact ⟨[], [], rfl⟩
    · rintro ⟨pre, post, h⟩
      rcases List.append_eq_nil.mp h.symm with ⟨h1, rfl⟩
      rcases List.append_eq_nil.mp h1 with ⟨rfl, rfl⟩
      exact ⟨[], rfl⟩
  | cons c cs ih =>
    simp only [occursIn, Bool.or_eq_true, startsWithList_iff, ih]
    constructor
    · rintro (⟨t, ht⟩ | ⟨pre, post, h⟩)
      · exact ⟨[], t, by simpa using ht⟩
      · exact ⟨c :: pre, post, by simp [h]⟩
    · rintro ⟨pre, post, h⟩
      cases pre with
      | nil => exact Or.inl ⟨post, by simpa using h⟩
      | cons x xs =>
        simp only [List.cons_append, List.cons.injEq] at h
        exact Or.inr ⟨xs, post, h.2⟩

/-! ## Claims -/

/-- C7: the due-window test compares at the granularity of the due value's
type — a date-only due against `now.date() + days`, a datetime due
against `now + days` — in particular a date-only due of 2024-06-10 with
dueWithinDays=5 is inside the window for now = 2024-06-08 and outside it
for now = 2024-06-01; a missing due value, or dueWithinDays = 0, is never
included by the window. -/
theorem due_window_granularity_and_examples :
    (∀ days nowT nowD, due_within_window none days nowT nowD = false)
    ∧ (∀ due nowT nowD, due_within_window due 0 nowT nowD = false)
    ∧ (∀ d days nowT nowD, due_within_window (some (.date d)) days nowT nowD
        = (decide (0 < days) && decide (d ≤ nowD + days)))
    ∧ (∀ t days nowT nowD, due_within_window (some (.datetime t)) days nowT nowD
        = (decide (0 < days) && decide (t ≤ nowT + days * 86400)))
    ∧ due_within_window (some (.date (daysFromCivil 2024 6 10))) 5 0 (daysFromCivil 2024 6 8) = true
    ∧ due_within_window (some (.date (daysFromCivil 2024 6 10))) 5 0 (daysFromCivil 2024 6 1) = false := by
  refine ⟨fun days nT nD => rfl, ?_, ?_, ?_, by decide, by decide⟩
  · intro due nT nD
    cases due with
    | none => rfl
    | some v => cases v <;> simp [due_within_window]
  · intro d days nT nD
    by_cases h : days ≤ 0
    · have h2 : ¬(0 < days) := by omega
      simp [due_within_window, h, h2]
    · have h2 : 0 < days := by omega
      simp [due_within_window, h, h2]
  · intro t days nT nD
    by_cases h : days ≤ 0
    · have h2 : ¬(0 < days) := by omega
      simp [due_within_window, h, h2]
    · have h2 : 0 < days := by omega
      simp [due_within_window, h, h2]

/-- C6: for a checkbox-typed status property the task is completed iff the
checkbox value is true; for a select- or status-typed property it is
completed iff the option name, case-insensitively, contains one of the
substrings "done", "complete", "completed", "dropped" (substring match,
not equality — "Completed Early" counts, "In Progress" does not). -/
theorem completion_detection :
    (∀ fs b, fs.lookup "type" = some (.str "checkbox") →
      fs.lookup "checkbox" = some (.bool b) →
      is_completed (some (.obj fs)) = .ok b)
    ∧ (∀ t n rest, t = "status" ∨ t = "select" →
      is_completed (some (.obj [("type", .str t), (t, .obj (("name", .str n) :: rest))]))
        = .ok (doneWord n))
    ∧ (∀ n, doneWord n = true ↔
        ((∃ pre post, (pyCasefold n).toList = pre ++ "done".toList ++ post)
          ∨ (∃ pre post, (pyCasefold n).toList = pre ++ "complete".toList ++ post)
          ∨ (∃ pre post, (pyCasefold n).toList = pre ++ "completed".toList ++ post)
          ∨ (∃ pre post, (pyCasefold n).toList = pre ++ "dropped".toList ++ post)))
    ∧ doneWord "Completed Early" = true
    ∧ doneWord "In Progress" = false := by
  refine ⟨?_, ?_, ?_, by decide, by decide⟩
  · intro fs b h1 h2
    cases fs with
    | nil => simp [List.lookup] at h1
    | cons f fl =>
      simp only [is_completed, jTruthy, List.isEmpty_cons, Bool.not_false, if_true, h1, h2,
        jTruthyOpt]
  · intro t n rest ht
    rcases ht with rfl | rfl <;>
      simp [is_completed, jTruthy, completedFromName, jOrElse, List.lookup]
  · intro n
    simp only [doneWord, strContains, Bool.or_eq_true, occursIn_iff, or_assoc]

/-- Witness for C6 at concrete inputs: a true checkbox and a "Dropped"
status. -/
theorem completion_detection_witness :
    is_completed (some (.obj [("type", .str "checkbox"), ("checkbox", .bool true)])) = .ok true
    ∧ is_completed (some (.obj [("type", .str "status"),
        ("status", .obj [("name", .str "Dropped")])])) = .ok (doneWord "Dropped") :=
  ⟨completion_detection.1 [("type", .str "checkbox"), ("checkbox", .bool true)] true rfl rfl,
   completion_detection.2.1 "status" "Dropped" [] (Or.inl rfl)⟩

/-- Counterexample to C4 as stated: an HTTP 500 response does not raise the
generic `NotionTodoApiClientError`; `response.raise_for_status()` raises
`aiohttp.ClientResponseError`, which the `except (aiohttp.ClientError,
socket.gaierror)` clause (api.py 144-146) converts into a
CommunicationError. -/
theorem api_wrapper_500_not_generic :
    isGenericApiResult (api_wrapper (.response 500 (some (.obj [])))) = false
    ∧ isCommResult (api_wrapper (.response 500 (some (.obj [])))) = true := by
  constructor <;> rfl

/-- C4 (amended): the request primitive classifies responses in precedence
order 401/403 → AuthenticationError("Invalid credentials"), 400 →
NotFoundError("Invalid database id"), 404 → NotFoundError("Resource not
found"), 429 → RateLimitError; any OTHER status ≥ 400 raises
CommunicationError (the `raise_for_status` exception is caught by the
network-error clause, not returned as a generic ApiError); a timeout and
a connect/DNS failure raise CommunicationError; any other unexpected
exception — including a 2xx response whose body cannot be parsed — is
wrapped into the base ApiError; the five errors form one closed set
distinguishable by constructor, every member of which is a
NotionTodoApiClientError. -/
theorem api_wrapper_classification :
    (∀ b, api_wrapper (.response 401 b) = .error (.authentication "Invalid credentials"))
    ∧ (∀ b, api_wrapper (.response 403 b) = .error (.authentication "Invalid credentials"))
    ∧ (∀ b, api_wrapper (.response 400 b) = .error (.notFound "Invalid database id"))
    ∧ (∀ b, api_wrapper (.response 404 b) = .error (.notFound "Resource not found"))
    ∧ (∀ b, api_wrapper (.response 429 b) = .error (.rateLimit "Rate limit exceeded"))
    ∧ (∀ s b, 400 ≤ s → s ≠ 400 → s ≠ 401 → s ≠ 403 → s ≠ 404 → s ≠ 429 →
        api_wrapper (.response s b)
          = .error (.communication ("Error fetching information - " ++ raiseForStatusMsg s)))
    ∧ (∀ m, api_wrapper (.timeoutExc m)
        = .error (.communication ("Timeout error fetching information - " ++ m)))
    ∧ (∀ m, api_wrapper (.clientExc m)
        = .error (.communication ("Error fetching information - " ++ m)))
    ∧ (∀ m, api_wrapper (.otherExc m) = .error (.api ("Unexpected error - " ++ m)))
    ∧ (∀ s j, s < 400 → api_wrapper (.response s (some j)) = .ok j)
    ∧ (∀ s, s < 400 → api_wrapper (.response s none)
        = .error (.api "Unexpected error - body is not valid JSON"))
    ∧ (∀ e, isNotionTodoApiClientError e = true) := by
  refine ⟨fun b => rfl, fun b => rfl, fun b => rfl, fun b => rfl, fun b => rfl,
    ?_, fun m => rfl, fun m => rfl, fun m => rfl, ?_, ?_, ?_⟩
  · intro s b h400 h1 h2 h3 h4 h5
    simp [api_wrapper, h400, h1, h2, h3, h4, h5]
  · intro s j h
    have h1 : ¬(s = 401 ∨ s = 403) := by omega
    have h2 : s ≠ 400 := by omega
    have h3 : s ≠ 404 := by omega
    have h4 : s ≠ 429 := by omega
    have h5 : ¬(400 ≤ s) := by omega
    simp [api_wrapper, h1, h2, h3, h4, h5]
  · intro s h
    have h1 : ¬(s = 401 ∨ s = 403) := by omega
    have h2 : s ≠ 400 := by omega
    have h3 : s ≠ 404 := by omega
    have h4 : s ≠ 429 := by omega
    have h5 : ¬(400 ≤ s) := by omega
    simp [api_wrapper, h1, h2, h3, h4, h5]
  · intro e
    cases e <;> rfl

/-- Witness for C4 (amended) at a concrete input: a 502 response is
classified as a CommunicationError. -/
theorem api_wrapper_classification_witness :
    api_wrapper (.response 502 none)
      = .error (.communication ("Error fetching information - " ++ raiseForStatusMsg 502)) :=
  api_wrapper_classification.2.2.2.2.2.1 502 none (by omega) (by omega) (by omega)
    (by omega) (by omega) (by omega)

/-- Counterexample to C3 as stated: a missing/empty dataSourceId makes
`_async_update_data` raise `UpdateFailed` (coordinator.py 30-31) — the
same transient condition as any other update failure, which IS retried on
the next scheduled tick, not a fatal non-retried condition. -/
theorem missing_data_source_id_is_transient :
    async_update_data (some "") (.ok [])
      = .error (.updateFailed "Missing data source id; reconfigure integration.")
    ∧ coordRaiseRetried (.updateFailed "Missing data source id; reconfigure integration.")
      = true := by
  constructor <;> rfl

/-- C3 (amended): `refresh()` requires a truthy configured dataSourceId;
when it is missing or empty the refresh raises `UpdateFailed` with the
message "Missing data source id; reconfigure integration." — asking the
user to reconfigure via the message, but surfacing the ordinary transient
failure condition that is retried automatically on subsequent scheduled
ticks. -/
theorem missing_data_source_id_update_failed (dsId : Option String)
    (fetch : Except ApiErr (List JVal)) (h : strTruthyOpt dsId = false) :
    async_update_data dsId fetch
      = .error (.updateFailed "Missing data source id; reconfigure integration.")
    ∧ coordRaiseRetried (.updateFailed "Missing data source id; reconfigure integration.")
      = true := by
  constructor
  · simp [async_update_data, h]
  · rfl

/-- Witness for C3 (amended): a `None` dataSourceId. -/
theorem missing_data_source_id_update_failed_witness :
    async_update_data none (.ok [.str "page"])
      = .error (.updateFailed "Missing data source id; reconfigure integration.") :=
  (missing_data_source_id_update_failed none (.ok [.str "page"]) rfl).1

/-- C2: with a configured data source id, an AuthenticationError from the
refresh escalates to the auth-blocked condition (no further unattended
refreshes until re-authentication) while any non-authentication API error
— NotFoundError, CommunicationError, RateLimitError or the base ApiError
— transitions the coordinator to Failed, eligible for retry on the next
tick; in every failure case the stored snapshot is left unchanged. -/
theorem coordinator_failure_handling (st : CoordState) (dsId : Option String)
    (fetch : Except ApiErr (List JVal)) (hds : strTruthyOpt dsId = true) :
    (∀ m, fetch = .error (.authentication m) →
      coordinator_tick st dsId fetch = ⟨st.data, true, false⟩
      ∧ retry_on_next_tick (coordinator_tick st dsId fetch) = false)
    ∧ (∀ e, fetch = .error e → isAuthErr e = false →
      coordinator_tick st dsId fetch = ⟨st.data, st.authBlocked, false⟩
      ∧ (st.authBlocked = false → retry_on_next_tick (coordinator_tick st dsId fetch) = true))
    ∧ ((coordinator_tick st dsId fetch).lastUpdateSuccess = false →
      (coordinator_tick st dsId fetch).data = st.data) := by
  refine ⟨?_, ?_, ?_⟩
  · rintro m rfl
    constructor
    · simp [coordinator_tick, async_update_data, hds]
    · simp [coordinator_tick, async_update_data, hds, retry_on_next_tick]
  · rintro e rfl he
    constructor
    · cases e <;> simp_all [coordinator_tick, async_update_data, hds, isAuthErr, errMsg]
    · intro hb
      cases e <;>
        simp_all [coordinator_tick, async_update_data, hds, isAuthErr, errMsg,
          retry_on_next_tick]
  · intro hfail
    cases fetch with
    | ok pages => simp [coordinator_tick, async_update_data, hds] at hfail
    | error e =>
      cases e <;> simp [coordinator_tick, async_update_data, hds, errMsg]

/-- Witness for C2: a concrete coordinator state holding a snapshot, hit by
an authentication failure — the snapshot survives and refreshes are
blocked. -/
theorem coordinator_failure_handling_witness :
    coordinator_tick ⟨some [.str "page"], false, true⟩ (some "ds")
        (.error (.authentication "Invalid credentials"))
      = ⟨some [.str "page"], true, false⟩ :=
  ((coordinator_failure_handling ⟨some [.str "page"], false, true⟩ (some "ds")
      (.error (.authentication "Invalid credentials")) rfl).1
    "Invalid credentials" rfl).1

/-! ## Pagination lemma and C5 -/

theorem queryGo_cons_hasMore (cur : Option String) (p : QueryPage)
    (rest : List QueryPage) (hm : p.has_more = true)
    (hcur : cursorTruthy p.next_cursor = true) :
    queryGo cur (p :: rest)
      = (⟨100, cur⟩ :: (queryGo p.next_cursor rest).1,
         p.results ++ (queryGo p.next_cursor rest).2) := by
  simp [queryGo, hm, hcur]

theorem queryGo_cons_last (cur : Option String) (p : QueryPage)
    (rest : List QueryPage) (hm : p.has_more = false) :
    queryGo cur (p :: rest) = ([⟨100, cur⟩], p.results) := by
  simp [queryGo, hm]

theorem queryGo_wellPaged (pages : List QueryPage) :
    ∀ cur, WellPaged pages →
      (queryGo cur pages).1.length = pages.length
      ∧ (∀ r ∈ (queryGo cur pages).1, r.page_size = 100)
      ∧ (queryGo cur pages).1.map PageRequest.start_cursor
          = cur :: pages.dropLast.map QueryPage.next_cursor
      ∧ (queryGo cur pages).2 = (pages.map QueryPage.results).flatten := by
  induction pages with
  | nil => intro cur h; exact absurd h id
  | cons p rest ih =>
    intro cur h
    cases rest with
    | nil =>
      have hm : p.has_more = false := h
      rw [queryGo_cons_last cur p [] hm]
      refine ⟨rfl, ?_, rfl, by simp⟩
      intro r hr
      simp only [List.mem_singleton] at hr
      simp [hr]
    | cons q rest' =>
      rcases h with ⟨hm, ⟨c, hc, hcne⟩, hrest⟩
      have hcur : cursorTruthy p.next_cursor = true := by
        simp [cursorTruthy, hc, hcne]
      rcases ih p.next_cursor hrest with ⟨ih1, ih2, ih3, ih4⟩
      rw [queryGo_cons_hasMore cur p (q :: rest') hm hcur]
      refine ⟨by simp [ih1], ?_, ?_, by simp [ih4]⟩
      · intro r hr
        simp only [List.mem_cons] at hr
        rcases hr with rfl | hr
        · rfl
        · exact ih2 r hr
      · simp [ih3]

/-- C5: for every well-paged response sequence (each page reports
`has_more` except the last, returning a truthy `next_cursor`),
`async_query_data_source` issues exactly N requests, all with
`page_size = 100`, the first with no `start_cursor` and each later one
carrying the previous page's `next_cursor`, and returns the concatenation
of all pages' results in page order. -/
theorem pagination_requests_and_results (pages : List QueryPage) (h : WellPaged pages) :
    (async_query_data_source pages).1.length = pages.length
    ∧ (∀ r ∈ (async_query_data_source pages).1, r.page_size = 100)
    ∧ (async_query_data_source pages).1.map PageRequest.start_cursor
        = none :: pages.dropLast.map QueryPage.next_cursor
    ∧ (async_query_data_source pages).2 = (pages.map QueryPage.results).flatten :=
  queryGo_wellPaged pages none h

/-- Witness for C5: two concrete pages, the first with a cursor. -/
theorem pagination_requests_and_results_witness :
    (async_query_data_source
        [⟨[.str "a"], true, some "c1"⟩, ⟨[.str "b"], false, none⟩]).1.map
        PageRequest.start_cursor
      = none :: ([⟨[.str "a"], true, some "c1"⟩,
          (⟨[.str "b"], false, none⟩ : QueryPage)] : List QueryPage).dropLast.map
          QueryPage.next_cursor :=
  (pagination_requests_and_results
      [⟨[.str "a"], true, some "c1"⟩, ⟨[.str "b"], false, none⟩]
      ⟨rfl, ⟨"c1", rfl, by decide⟩, rfl⟩).2.2.1

/-! ## Filter refinement (C1) -/

theorem pyCasefold_eq_empty {s : String} (h : pyCasefold s = "") : s = "" := by
  have hd : (pyCasefold s).data = ("" : String).data := by rw [h]
  simp only [pyCasefold] at hd
  have : s.data.map Char.toLower = [] := hd
  have hnil : s.data = [] := List.map_eq_nil_iff.mp this
  cases s
  simp_all

theorem mem_parse_status_list_ne_empty {v : Option String} {x : String}
    (hx : x ∈ parse_status_list v) : x ≠ "" := by
  cases v with
  | none => simp [parse_status_list] at hx
  | some s =>
    by_cases hs : s = ""
    · simp [parse_status_list, hs] at hx
    · simp only [parse_status_list, hs, if_false, List.mem_filterMap] at hx
      rcases hx with ⟨item, _, hitem⟩
      by_cases ht : pyStrip item = ""
      · simp [ht] at hitem
      · simp only [ht, if_false, Option.some.injEq] at hitem
        intro hxe
        exact ht (pyCasefold_eq_empty (hitem.symm ▸ hxe))

/-- C1: for every mapped task, the entity filter (todo.py 210-221) agrees
with the spec's three-step rule: an exclude-set match (case-folded) drops
the task unconditionally, even when the same status is in the include
set; otherwise, when an include set is configured or dueWithinDays > 0,
the task is kept iff its case-folded status name is in the include set or
its due value lies in the due window; otherwise the task is kept.  Both
status sets come from `_parse_status_list` on the configured strings. -/
theorem filter_order_refines_spec (excCfg incCfg : Option String) (days : Int)
    (statusName : Option String) (due : Option DueValue) (nowT nowD : Int) :
    keepTask (parse_status_list excCfg) (parse_status_list incCfg) days
        statusName due nowT nowD
      = keepTaskSpec (parse_status_list excCfg) (parse_status_list incCfg) days
        statusName due nowT nowD := by
  cases statusName with
  | none => simp [keepTask, keepTaskSpec, strTruthyOpt]
  | some s =>
    by_cases hs : s = ""
    · subst hs
      have hex : pyCasefold "" ∉ parse_status_list excCfg := fun hmem =>
        mem_parse_status_list_ne_empty hmem rfl
      have hinc : pyCasefold "" ∉ parse_status_list incCfg := fun hmem =>
        mem_parse_status_list_ne_empty hmem rfl
      simp [keepTask, keepTaskSpec, strTruthyOpt, hex, hinc]
    · by_cases hinc : (parse_status_list incCfg).isEmpty
      · have hmem : pyCasefold s ∉ parse_status_list incCfg := by
          rw [List.isEmpty_iff.mp hinc]
          simp
        simp [keepTask, keepTaskSpec, strTruthyOpt, hs, hinc, hmem]
      · simp [keepTask, keepTaskSpec, strTruthyOpt, hs, hinc]

/-- C8: due extraction takes the date-typed property's start value; a
start containing a time component (a `T`) is parsed as a timezone-aware
local datetime, otherwise as a calendar date; a date-only start is never
promoted to a datetime and a datetime never demoted to a date. -/
theorem due_extraction_granularity :
    (∀ prop s, startOf prop = some s →
      extract_due prop = .ok (if hasT s
        then (parse_datetime s).map (fun u => DueValue.datetime (as_local u))
        else (parseDateISO s).map DueValue.date))
    ∧ (∀ prop t, extract_due prop = .ok (some (.datetime t)) →
        ∃ s, startOf prop = some s ∧ hasT s = true)
    ∧ (∀ prop d, extract_due prop = .ok (some (.date d)) →
        ∃ s, startOf prop = some s ∧ hasT s = false) := by
  refine ⟨?_, ?_, ?_⟩
  · intro prop s h
    unfold startOf at h
    unfold extract_due
    cases hd : dueStart prop with
    | error e => rw [hd] at h; cases h
    | ok o =>
      cases o with
      | none => rw [hd] at h; cases h
      | some s2 =>
        rw [hd] at h
        simp only [Option.some.injEq] at h
        subst h
        split <;> simp_all [apply_ite]
  · intro prop t h
    unfold extract_due at h
    cases hd : dueStart prop with
    | error e => rw [hd] at h; cases h
    | ok o =>
      cases o with
      | none => rw [hd] at h; cases h
      | some s =>
        rw [hd] at h
        refine ⟨s, by simp [startOf, hd], ?_⟩
        by_cases hT : hasT s
        · exact hT
        · exfalso
          simp only [hT, if_false] at h
          cases hp : parseDateISO s with
          | none => rw [hp] at h; simp at h
          | some d => rw [hp] at h; simp at h
  · intro prop d h
    unfold extract_due at h
    cases hd : dueStart prop with
    | error e => rw [hd] at h; cases h
    | ok o =>
      cases o with
      | none => rw [hd] at h; cases h
      | some s =>
        rw [hd] at h
        refine ⟨s, by simp [startOf, hd], ?_⟩
        by_cases hT : hasT s
        · exfalso
          simp only [hT, if_true] at h
          cases hp : parse_datetime s with
          | none => rw [hp] at h; simp at h
          | some u => rw [hp] at h; simp at h
        · simp [hT]

/-- Witness for C8: a date-only start string stays a calendar date and a
datetime start is parsed as a local datetime. -/
theorem due_extraction_granularity_witness :
    extract_due (some (.obj [("type", .str "date"),
        ("date", .obj [("start", .str "2024-06-10")])]))
      = .ok (if hasT "2024-06-10"
          then (parse_datetime "2024-06-10").map (fun u => DueValue.datetime (as_local u))
          else (parseDateISO "2024-06-10").map DueValue.date)
    ∧ extract_due (some (.obj [("type", .str "date"),
        ("date", .obj [("start", .str "2024-06-10T12:30:00")])]))
      = .ok (if hasT "2024-06-10T12:30:00"
          then (parse_datetime "2024-06-10T12:30:00").map
            (fun u => DueValue.datetime (as_local u))
          else (parseDateISO "2024-06-10T12:30:00").map DueValue.date) :=
  ⟨due_extraction_granularity.1
      (some (.obj [("type", .str "date"), ("date", .obj [("start", .str "2024-06-10")])]))
      "2024-06-10" rfl,
   due_extraction_granularity.1
      (some (.obj [("type", .str "date"),
        ("date", .obj [("start", .str "2024-06-10T12:30:00")])]))
      "2024-06-10T12:30:00" rfl⟩

/-! ## Snapshot-to-list structure (C9) -/

theorem itemOf_flagged (cfg : EntryConfig) (nowT nowD : Int) (p : JVal)
    (h : pageFlagged p = true) : itemOf cfg nowT nowD p = none := by
  cases p with
  | null => simp [pageFlagged, jGetTotal, jTruthyOpt] at h
  | bool b => simp [pageFlagged, jGetTotal, jTruthyOpt] at h
  | num n => simp [pageFlagged, jGetTotal, jTruthyOpt] at h
  | str s => simp [pageFlagged, jGetTotal, jTruthyOpt] at h
  | arr xs => simp [pageFlagged, jGetTotal, jTruthyOpt] at h
  | obj fs =>
    simp only [pageFlagged, jGetTotal] at h
    by_cases harch : jTruthyOpt (fs.lookup "archived") = true
    · simp [itemOf, buildOne, jGet, harch]
    · have htrash : jTruthyOpt (fs.lookup "in_trash") = true := by
        rcases Bool.or_eq_true _ _ |>.mp h with h1 | h1
        · exact absurd h1 harch
        · exact h1
      simp [itemOf, buildOne, jGet, harch, htrash]

theorem buildItems_ok_eq (cfg : EntryConfig) (nowT nowD : Int) :
    ∀ (pages : List JVal) (items : List TodoItem),
      buildItems cfg nowT nowD pages = .ok items →
      items = pages.filterMap (itemOf cfg nowT nowD) := by
  intro pages
  induction pages with
  | nil =>
    intro items h
    simp only [buildItems] at h
    cases h
    rfl
  | cons p rest ih =>
    intro items h
    simp only [buildItems] at h
    cases h1 : buildOne cfg nowT nowD p with
    | error e => rw [h1] at h; cases h
    | ok o =>
      rw [h1] at h
      cases h2 : buildItems cfg nowT nowD rest with
      | error e => rw [h2] at h; cases h
      | ok tail =>
        rw [h2] at h
        cases h
        have htail := ih tail h2
        cases o with
        | none => simp [List.filterMap_cons, itemOf, h1, htail]
        | some it => simp [List.filterMap_cons, itemOf, h1, htail]

/-- C9: whenever the update callback completes, the published task list is
an order-preserving selection over the snapshot — each record contributes
its item or nothing, in snapshot order — and a record flagged
`archived` or `in_trash` never contributes an item. -/
theorem published_list_is_ordered_selection (cfg : EntryConfig) (nowT nowD : Int)
    (pages : List JVal) (items : List TodoItem)
    (h : buildItems cfg nowT nowD pages = .ok items) :
    items = pages.filterMap (itemOf cfg nowT nowD)
    ∧ ∀ p, pageFlagged p = true → itemOf cfg nowT nowD p = none :=
  ⟨buildItems_ok_eq cfg nowT nowD pages items h,
   fun p hp => itemOf_flagged cfg nowT nowD p hp⟩

/-- Witness for C9: an archived record followed by a live one — the
published list is the ordered selection over the two-record snapshot. -/
theorem published_list_is_ordered_selection_witness :
    [({ summary := "Task", uid := some (.str "2"), status := .needsAction,
        due := none, description := none } : TodoItem)]
      = [JVal.obj [("id", .str "1"), ("archived", .bool true)],
         JVal.obj [("id", .str "2"), ("properties", .obj [("Name",
           .obj [("type", .str "title"),
                 ("title", .arr [.obj [("plain_text", .str "Task")]])])])]].filterMap
          (itemOf ⟨"Name", "Status", "Due", "Description", [], [], 0⟩ 0 0) :=
  (published_list_is_ordered_selection ⟨"Name", "Status", "Due", "Description", [], [], 0⟩
      0 0
      [JVal.obj [("id", .str "1"), ("archived", .bool true)],
       JVal.obj [("id", .str "2"), ("properties", .obj [("Name",
         .obj [("type", .str "title"),
               ("title", .arr [.obj [("plain_text", .str "Task")]])])])]]
      [{ summary := "Task", uid := some (.str "2"), status := .needsAction,
         due := none, description := none }] rfl).1

/-! ## Extraction totality over malformed inputs (C10) -/

/-- The property types any of the four extractors recognizes. -/
def recognizedTypeStrs : List String :=
  ["title", "rich_text", "select", "status", "checkbox", "date"]

/-- The malformed-input classes of C10: the property is missing, null (or
otherwise falsy), of an unrecognized type, of a recognized type with its
payload sub-field missing or null, or a date whose start string parses
under neither format. -/
def MalformedClass (prop : Option JVal) : Prop :=
  prop = none
  ∨ (∃ v, prop = some v ∧ jTruthy v = false)
  ∨ (∃ fs, prop = some (.obj fs) ∧
      ∀ t, t ∈ recognizedTypeStrs → fs.lookup "type" ≠ some (.str t))
  ∨ (∃ fs t, prop = some (.obj fs) ∧ fs.lookup "type" = some (.str t) ∧
      t ∈ recognizedTypeStrs ∧ (fs.lookup t = none ∨ fs.lookup t = some .null))
  ∨ (∃ fs s, prop = some (.obj fs) ∧ fs.lookup "type" = some (.str "date") ∧
      fs.lookup "date" = some (.obj [("start", .str s)]) ∧ s ≠ "" ∧
      (hasT s = true → parse_datetime s = none) ∧
      (hasT s = false → parseDateISO s = none))

theorem lookup_some_jTruthy {fs : List (String × JVal)} {k : String} {v : JVal}
    (h : fs.lookup k = some v) : jTruthy (.obj fs) = true := by
  cases fs with
  | nil => simp [List.lookup] at h
  | cons f fl => simp [jTruthy]

/-- C10: over every malformed property value of the classes above, the
extractors degrade to their defaults without raising: `_extract_text` and
`_status_name` return null, `_extract_due` returns null (a malformed
date-only start never raises), and `_is_completed` returns false. -/
theorem extraction_total_on_malformed (prop : Option JVal) (h : MalformedClass prop) :
    extract_text prop = .ok none
    ∧ status_name prop = .ok none
    ∧ extract_due prop = .ok none
    ∧ is_completed prop = .ok false := by
  rcases h with rfl | ⟨v, rfl, hv⟩ | ⟨fs, rfl, hall⟩ | ⟨fs, t, rfl, hty, hmem, hpay⟩ |
    ⟨fs, s, rfl, hty, hdate, hsne, hT, hnT⟩
  · exact ⟨rfl, rfl, rfl, rfl⟩
  · exact ⟨by simp [extract_text, hv], by simp [status_name, hv],
      by simp [extract_due, dueStart, hv], by simp [is_completed, hv]⟩
  · by_cases hfs : jTruthy (.obj fs) = true
    · cases hty : fs.lookup "type" with
      | none =>
        exact ⟨by simp [extract_text, hfs, hty], by simp [status_name, hfs, hty],
          by simp [extract_due, dueStart, hfs, hty], by simp [is_completed, hfs, hty]⟩
      | some tv =>
        cases tv with
        | str t =>
          have h1 : t ≠ "title" := by
            intro e; exact hall "title" (by simp [recognizedTypeStrs]) (by rw [← e]; exact hty)
          have h2 : t ≠ "rich_text" := by
            intro e; exact hall "rich_text" (by simp [recognizedTypeStrs]) (by rw [← e]; exact hty)
          have h3 : t ≠ "select" := by
            intro e; exact hall "select" (by simp [recognizedTypeStrs]) (by rw [← e]; exact hty)
          have h4 : t ≠ "status" := by
            intro e; exact hall "status" (by simp [recognizedTypeStrs]) (by rw [← e]; exact hty)
          have h5 : t ≠ "checkbox" := by
            intro e; exact hall "checkbox" (by simp [recognizedTypeStrs]) (by rw [← e]; exact hty)
          have h6 : t ≠ "date" := by
            intro e; exact hall "date" (by simp [recognizedTypeStrs]) (by rw [← e]; exact hty)
          exact ⟨by simp [extract_text, hfs, hty, h1, h2, h3],
            by simp [status_name, hfs, hty, h3, h4],
            by simp [extract_due, dueStart, hfs, hty, h6],
            by simp [is_completed, hfs, hty, h3, h4, h5]⟩
        | null =>
          exact ⟨by simp [extract_text, hfs, hty], by simp [status_name, hfs, hty],
            by simp [extract_due, dueStart, hfs, hty], by simp [is_completed, hfs, hty]⟩
        | bool b =>
          exact ⟨by simp [extract_text, hfs, hty], by simp [status_name, hfs, hty],
            by simp [extract_due, dueStart, hfs, hty], by simp [is_completed, hfs, hty]⟩
        | num n =>
          exact ⟨by simp [extract_text, hfs, hty], by simp [status_name, hfs, hty],
            by simp [extract_due, dueStart, hfs, hty], by simp [is_completed, hfs, hty]⟩
        | arr xs =>
          exact ⟨by simp [extract_text, hfs, hty], by simp [status_name, hfs, hty],
            by simp [extract_due, dueStart, hfs, hty], by simp [is_completed, hfs, hty]⟩
        | obj fs2 =>
          exact ⟨by simp [extract_text, hfs, hty], by simp [status_name, hfs, hty],
            by simp [extract_due, dueStart, hfs, hty], by simp [is_completed, hfs, hty]⟩
    · have hv : jTruthy (.obj fs) = false := by
        cases hb : jTruthy (.obj fs)
        · rfl
        · exact absurd hb hfs
      exact ⟨by simp [extract_text, hv], by simp [status_name, hv],
        by simp [extract_due, dueStart, hv], by simp [is_completed, hv]⟩
  · have hfs : jTruthy (.obj fs) = true := lookup_some_jTruthy hty
    have hnil : ¬fs = [] := by
      intro e; rw [e] at hfs; simp [jTruthy] at hfs
    simp only [recognizedTypeStrs, List.mem_cons, List.mem_singleton,
      List.not_mem_nil, or_false] at hmem
    rcases hmem with rfl | rfl | rfl | rfl | rfl | rfl <;> rcases hpay with hp | hp <;>
      exact ⟨by simp [extract_text, extractTextParts, extractSelectName, joinPlainText,
          jOrElse, jTruthy, pyStrip, hfs, hty, hp, hnil],
        by simp [status_name, statusValueName, jOrElse, jTruthy, hfs, hty, hp, hnil],
        by simp [extract_due, dueStart, jOrElse, jTruthy, hfs, hty, hp, hnil],
        by simp [is_completed, completedFromName, jOrElse, jTruthy, jTruthyOpt,
          hfs, hty, hp, doneWord, hnil] <;> decide⟩
  · have hfs : jTruthy (.obj fs) = true := lookup_some_jTruthy hty
    have hnil : ¬fs = [] := by
      intro e; rw [e] at hfs; simp [jTruthy] at hfs
    refine ⟨by simp [extract_text, hfs, hty], by simp [status_name, hfs, hty], ?_,
      by simp [is_completed, hfs, hty]⟩
    have hds : dueStart (some (.obj fs)) = .ok (some s) := by
      simp [dueStart, hfs, hty, hdate, jOrElse, jTruthy, hsne, hnil]
    cases hhT : hasT s with
    | true => simp [extract_due, hds, hhT, hT hhT]
    | false => simp [extract_due, hds, hhT, hnT hhT]

/-- Witness for C10: a date property with a non-ISO start string yields
null without raising. -/
theorem extraction_total_on_malformed_witness :
    extract_due (some (.obj [("type", .str "date"),
        ("date", .obj [("start", .str "not-a-date")])])) = .ok none :=
  (extraction_total_on_malformed
      (some (.obj [("type", .str "date"), ("date", .obj [("start", .str "not-a-date")])]))
      (Or.inr (Or.inr (Or.inr (Or.inr
        ⟨[("type", .str "date"), ("date", .obj [("start", .str "not-a-date")])],
         "not-a-date", rfl, rfl, rfl, by decide,
         fun hT => absurd hT (by decide), fun _ => by decide⟩))))).2.2.1

end NotionTodo
